import Mathlib

/-
  Verification of the mangarn filename metadata parser and its grouping stage.

  The Go source (internal/parser/parser.go and the CLI main) is embedded
  shallowly: each compiled regular expression is rendered as a hand-written
  matcher with the engine's leftmost-first semantics (scan start positions left
  to right; at one position, alternatives are tried in written order, greedy
  pieces prefer to consume, lazy pieces prefer not to), strconv.ParseUint is
  modelled with its syntax/range error cases, and a Go panic is modelled as an
  Except.error value threaded out of `parse`.
-/

set_option maxRecDepth 10000

namespace Mangarn

/-- Character class of the RE2 escape for a decimal digit (ASCII 0-9). -/
def isDigit (c : Char) : Bool := 48 ≤ c.toNat && c.toNat ≤ 57

/-- Character class of the RE2 whitespace escape: tab, newline, form feed,
carriage return, space. -/
def isSpaceRE (c : Char) : Bool :=
  c.toNat = 9 || c.toNat = 10 || c.toNat = 12 || c.toNat = 13 || c.toNat = 32

/-- ASCII letter, the class `[a-zA-Z]`. -/
def isAlphaRE (c : Char) : Bool :=
  (97 ≤ c.toNat && c.toNat ≤ 122) || (65 ≤ c.toNat && c.toNat ≤ 90)

/-- Numeric value of a base-10 digit run, as strconv.ParseUint accumulates it. -/
def digitsToNat (l : List Char) : Nat := l.foldl (fun a c => a * 10 + (c.toNat - 48)) 0

/-- Error cases of strconv.ParseUint: `badNum` corresponds to ErrSyntax (the
string is not a digit run), `outOfRange` to ErrRange (the value does not fit in
64 bits).  Reaching either inside the parser is a Go panic. -/
inductive NumError where
  | badNum
  | outOfRange
deriving DecidableEq

/-- strconv.ParseUint with base 10 and bitSize 64. -/
def parseUint64 (l : List Char) : Except NumError Nat :=
  if l = [] then .error .badNum
  else if l.all isDigit then
    if digitsToNat l < 2 ^ 64 then .ok (digitsToNat l) else .error .outOfRange
  else .error .badNum

/-- The sentinel `^uint(0)` on a 64-bit platform. -/
def UNDETERMINED : Nat := 2 ^ 64 - 1

/-- Greedy match of the one-or-more-digits fragment, returning the capture:
the maximal digit run at the front, failing when it is empty. -/
def tryDigits (l : List Char) : Option (List Char) :=
  if l.takeWhile isDigit = [] then none else some (l.takeWhile isDigit)

/-- The optional dot-whitespace fragment of volRegexp/chapRegexp followed by the
digit capture group, in the engine's greedy backtracking order: first try to
consume the dot and whitespace, then fall back to matching the digits directly. -/
def afterMarker (l : List Char) : Option (List Char) :=
  (match l with
   | '.' :: c :: rest => if isSpaceRE c then tryDigits rest else none
   | _ => none) <|> tryDigits l

/-- The marker alternatives of volRegexp/chapRegexp tried in the order written
in the pattern; each consumes the marker and hands over to `afterMarker`. -/
def tryMarkers : List (List Char) → List Char → Option (List Char)
  | [], _ => none
  | m :: ms, l =>
    (if m.isPrefixOf l then afterMarker (l.drop m.length) else none) <|> tryMarkers ms l

/-- FindStringSubmatch's scan: start positions are tried left to right
(including the empty suffix) and the first position with a match wins. -/
def scanFirst {α : Type} (f : List Char → Option α) : List Char → Option α
  | [] => f []
  | c :: t => f (c :: t) <|> scanFirst f t

/-- Capture group of volRegexp `(?:Vol|Volume|v)(?:\.\s)?(?P<uint>\d+)` on the
leftmost match. -/
def volCapture (s : List Char) : Option (List Char) :=
  scanFirst (tryMarkers [['V', 'o', 'l'], ['V', 'o', 'l', 'u', 'm', 'e'], ['v']]) s

/-- Capture group of chapRegexp `(?:Ch|Chapter|c)(?:\.\s)?(?P<uint>\d+)` on the
leftmost match. -/
def chapCapture (s : List Char) : Option (List Char) :=
  scanFirst (tryMarkers [['C', 'h'], ['C', 'h', 'a', 'p', 't', 'e', 'r'], ['c']]) s

/-- Capture group of absRegexp `(?P<uint>^\d+)`: digits anchored at the very
start of the string. -/
def absCapture (s : List Char) : Option (List Char) := tryDigits s

/-- parseUintFromRegex: the default value when the regex found no match,
strconv.ParseUint of the capture otherwise (a parse failure there is a panic,
modelled as the error).  For the three regexes fed to this function the capture
group named `uint` is group 1, so the SubexpNames loop always lands on it and
the final missing-group panic of the Go function is not represented. -/
def parseUintFromRegex (capture : Option (List Char)) (defaultValue : Nat) :
    Except NumError Nat :=
  match capture with
  | none => .ok defaultValue
  | some ds => parseUint64 ds

/-- The class `[^.0-9]` of pnumRegexp. -/
def notDotDigit (c : Char) : Bool := !(c.toNat = 46) && !(isDigit c)

/-- First alternative of pnumRegexp, `p(\d+)`: the letter p then the digit
capture. -/
def pnumB1 : List Char → Option (List Char)
  | 'p' :: rest => tryDigits rest
  | _ => none

/-- Second alternative of pnumRegexp, `[^.0-9]{2}(?:(\d+)\.[a-zA-Z]+$)`: two
characters that are neither a dot nor a digit, the digit capture, a dot, then
one or more letters running to the very end of the string. -/
def pnumB2 : List Char → Option (List Char)
  | a :: b :: rest =>
    if notDotDigit a && notDotDigit b then
      match tryDigits rest with
      | none => none
      | some ds =>
        match rest.drop ds.length with
        | '.' :: tl => if !tl.isEmpty && tl.all isAlphaRE then some ds else none
        | _ => none
    else none
  | _ => none

/-- The submatch groups of pnumRegexp at one start position: group 1 and group 2,
the first alternative preferred.  A non-participating group is `none`, matching
the empty string Go reports for it. -/
def pnumMatchAt (l : List Char) : Option (Option (List Char) × Option (List Char)) :=
  match pnumB1 l with
  | some ds => some (some ds, none)
  | none =>
    match pnumB2 l with
    | some ds => some (none, some ds)
    | none => none

/-- FindStringSubmatch for pnumRegexp: the groups of the leftmost match. -/
def pnumSubmatch (s : List Char) : Option (Option (List Char) × Option (List Char)) :=
  scanFirst pnumMatchAt s

/-- The page-number loop of `parse`: group 0 is skipped (it is not in the list),
empty groups are skipped, and every non-empty group is parsed — a parse failure
is a panic — and overwrites the accumulator, so the last non-empty group wins. -/
def pnumLoop : List (Option (List Char)) → Nat → Except NumError Nat
  | [], acc => .ok acc
  | none :: rest, acc => pnumLoop rest acc
  | some ds :: rest, _ =>
    match parseUint64 ds with
    | .error e => .error e
    | .ok v => pnumLoop rest v

/-- The page-number field of `parse`: `^uint(0)` before the loop, then the loop
over the submatch groups of the leftmost pnumRegexp match. -/
def pnumField (s : List Char) : Except NumError Nat :=
  match pnumSubmatch s with
  | none => .ok UNDETERMINED
  | some (g1, g2) => pnumLoop [g1, g2] UNDETERMINED

/-- The separator class `[_ ]` of titleRegexp. -/
def isSep (c : Char) : Bool := c.toNat = 95 || c.toNat = 32

/-- The title class `[a-zA-Z'_ ]`: letters, apostrophe, underscore, space. -/
def isTitleChar (c : Char) : Bool := isAlphaRE c || c.toNat = 39 || c.toNat = 95 || c.toNat = 32

/-- The keyword alternatives `(?:Vol|Volume|Chapter|Ch)\. ` of titleRegexp, in
written order, each followed by the trailing digits of the pattern. -/
def tryTitleKeywords : List (List Char) → List Char → Option Unit
  | [], _ => none
  | k :: ks, l =>
    (if k.isPrefixOf l then
       match l.drop k.length with
       | '.' :: ' ' :: rest => (tryDigits rest).map fun _ => ()
       | _ => none
     else none) <|> tryTitleKeywords ks l

/-- The marker tail `(?:[cvp]|(?:Vol|Volume|Chapter|Ch)\. )\d+` of titleRegexp:
one of the letters c, v, p, or a keyword with dot-space, then digits. -/
def titleMarker (l : List Char) : Option Unit :=
  (match l with
   | c :: rest =>
     if c.toNat = 99 || c.toNat = 118 || c.toNat = 112 then (tryDigits rest).map fun _ => ()
     else none
   | [] => none) <|>
    tryTitleKeywords
      [['V', 'o', 'l'], ['V', 'o', 'l', 'u', 'm', 'e'],
        ['C', 'h', 'a', 'p', 't', 'e', 'r'], ['C', 'h']] l

/-- What follows the title capture: the greedy optional separator `[_ ]?` (first
try to consume it), then the marker tail. -/
def afterTitle (l : List Char) : Option Unit :=
  (match l with
   | c :: rest => if isSep c then titleMarker rest else none
   | [] => none) <|> titleMarker l

/-- The lazy capture `(?P<title>[a-zA-Z'_ ]+?)`: having consumed `acc`, extend
one character at a time, and at each length try the continuation first —
shortest match wins, as the non-greedy quantifier backtracks. -/
def titleLazy : List Char → List Char → Option (List Char)
  | _, [] => none
  | acc, c :: rest =>
    if isTitleChar c then
      ((afterTitle rest).map fun _ => acc ++ [c]) <|> titleLazy (acc ++ [c]) rest
    else none

/-- titleRegexp at one start position: the greedy optional leading separator
`[_ ]?` (first try to consume it), then the lazy capture. -/
def titleAt (l : List Char) : Option (List Char) :=
  (match l with
   | c :: rest => if isSep c then titleLazy [] rest else none
   | [] => none) <|> titleLazy [] l

/-- FindStringSubmatch for titleRegexp: the capture of the leftmost match. -/
def titleCapture (s : List Char) : Option (List Char) := scanFirst titleAt s

/-- parseString applied to titleRegexp: the first capture group of the match,
or the empty string when there is no match. -/
def parseString (s : List Char) : List Char :=
  match titleCapture s with
  | none => []
  | some t => t

/-- strings.ReplaceAll with every underscore replaced by a space. -/
def replaceUnderscores (l : List Char) : List Char :=
  l.map fun c => if c.toNat = 95 then ' ' else c

/-- The Page record of the parser; the Go uint fields are Nat values below 2^64. -/
structure Page where
  Title : List Char
  FileName : List Char
  Volume : Nat
  PageNumber : Nat
  AbsolutePageNumber : Nat
  Chapter : Nat
deriving DecidableEq

/-- parse, the underlying implementation for `Parse`.  The Go function either
returns a Page or panics inside one of the numeric extractions; a panic is the
`Except.error` case, raised in the order the source evaluates the fields. -/
def parse (name : List Char) : Except NumError Page :=
  match parseUintFromRegex (volCapture name) 0 with
  | .error e => .error e
  | .ok vol =>
    match parseUintFromRegex (chapCapture name) 0 with
    | .error e => .error e
    | .ok chap =>
      match parseUintFromRegex (absCapture name) UNDETERMINED with
      | .error e => .error e
      | .ok abs =>
        match pnumField name with
        | .error e => .error e
        | .ok pnum =>
          .ok { FileName := name, Title := replaceUnderscores (parseString name),
                AbsolutePageNumber := abs, PageNumber := pnum, Volume := vol,
                Chapter := chap }

/-- The error message `Parse` returns when the title is empty. -/
def titleErrMsg : List Char := ("unable to parse title from filename").data

/-- Parse returns the page produced by `parse` and, exactly when its title is
empty, additionally the error. -/
def Parse (name : List Char) : Except NumError (Page × Option (List Char)) :=
  match parse name with
  | .error e => .error e
  | .ok p => if p.Title = [] then .ok (p, some titleErrMsg) else .ok (p, none)

/-- The fatal outcomes of the grouping and validation loop in main. -/
inductive MainError where
  | noPages
  | titleMismatch
  | volumeUndetermined
  | pageUndetermined
  | chapterUndetermined
deriving DecidableEq

/-- One iteration of the validation loop in main, in source order: title
mismatch, volume sentinel, page-number sentinel, chapter sentinel. -/
def checkPage (title0 : List Char) (p : Page) : Except MainError Unit :=
  if p.Title ≠ title0 then .error .titleMismatch
  else if p.Volume = UNDETERMINED then .error .volumeUndetermined
  else if p.PageNumber = UNDETERMINED then .error .pageUndetermined
  else if p.Chapter = UNDETERMINED then .error .chapterUndetermined
  else .ok ()

/-- The validation loop over all pages, stopping at the first failure. -/
def checkPages (title0 : List Char) : List Page → Except MainError Unit
  | [] => .ok ()
  | p :: rest =>
    match checkPage title0 p with
    | .error e => .error e
    | .ok _ => checkPages title0 rest

/-- The (volume, chapter) buckets of the run.  Go iterates its maps in an
unspecified order; the keys are listed in order of first appearance, which fixes
one order on the same set of buckets. -/
def bucketKeys (pages : List Page) : List (Nat × Nat) :=
  pages.foldl
    (fun acc p => if (p.Volume, p.Chapter) ∈ acc then acc else acc ++ [(p.Volume, p.Chapter)]) []

/-- The archive name main builds for one bucket: `<title> Vol.<volume>`, then
` Ch.<chapter>` when the chapter is non-zero, then `.cbz`. -/
def outputName (title : List Char) (vol chap : Nat) : List Char :=
  title ++ (" Vol.").data ++ (Nat.repr vol).data ++
    (if chap ≠ 0 then (" Ch.").data ++ (Nat.repr chap).data else []) ++ (".cbz").data

/-- main after parsing: the validation loop over all pages, then one archive
name per (volume, chapter) bucket; any error aborts before any name is
produced. -/
def runMain (pages : List Page) : Except MainError (List (List Char)) :=
  match pages with
  | [] => .error .noPages
  | p0 :: _ =>
    match checkPages p0.Title pages with
    | .error e => .error e
    | .ok _ => .ok ((bucketKeys pages).map fun vc => outputName p0.Title vc.1 vc.2)

/-- Modelled from the spec claim's words, for comparison with the code: every
match position is scanned left to right and each match contributes its submatch
groups, in group order. -/
def pnumScanAll : List Char → List (Option (List Char) × Option (List Char))
  | [] => (pnumMatchAt []).toList
  | c :: t => (pnumMatchAt (c :: t)).toList ++ pnumScanAll t

/-- Modelled from the spec claim's words: the last non-empty captured group
found during the left-to-right scan of all matches. -/
def lastCaptureOfAll (s : List Char) : Option (List Char) :=
  (pnumScanAll s).foldl (fun acc g => g.2 <|> g.1 <|> acc) none

/-- Modelled from the spec claim's words: the page number under the
last-capture-of-all-matches rule, with the sentinel when nothing matches. -/
def pnumClaimRule (s : List Char) : Nat :=
  match lastCaptureOfAll s with
  | none => UNDETERMINED
  | some ds => digitsToNat ds

/-- The amended rule, following the code: the leftmost match wins, with the
first alternative preferred at equal start positions; its capture gives the
page number, and the sentinel stands when there is no match at all. -/
def pnumLeftmostRule (s : List Char) : Nat :=
  match scanFirst (fun l => pnumB1 l <|> pnumB2 l) s with
  | none => UNDETERMINED
  | some ds => digitsToNat ds

/-- A well-formed capture: non-empty and made of digits only. -/
def WfCap (ds : List Char) : Prop := ds ≠ [] ∧ ds.all isDigit = true

/-- The single value the submatch groups of one pnumRegexp match determine:
the last non-empty group scanned in group order. -/
def combineSubmatch : Option (Option (List Char) × Option (List Char)) → Option (List Char)
  | none => none
  | some g => g.2 <|> g.1

/-- The record parse produces for the empty input. -/
def pageOfEmpty : Page :=
  { Title := [], FileName := [], Volume := 0, PageNumber := UNDETERMINED,
    AbsolutePageNumber := UNDETERMINED, Chapter := 0 }

/-- The record parse produces for "ab1.jpg". -/
def pageOfAb1 : Page :=
  { Title := [], FileName := ("ab1.jpg").data, Volume := 0, PageNumber := 1,
    AbsolutePageNumber := UNDETERMINED, Chapter := 0 }

/-- The record parse produces for "A_c1". -/
def pageOfAc1 : Page :=
  { Title := ("A").data, FileName := ("A_c1").data, Volume := 0,
    PageNumber := UNDETERMINED, AbsolutePageNumber := UNDETERMINED, Chapter := 1 }

/-- A page whose volume carries the sentinel. -/
def pageVolSentinel : Page :=
  { Title := [], FileName := [], Volume := UNDETERMINED, PageNumber := 0,
    AbsolutePageNumber := 0, Chapter := 0 }

/-- A page with empty title and no sentinel fields. -/
def pageBlank : Page :=
  { Title := [], FileName := [], Volume := 0, PageNumber := 0,
    AbsolutePageNumber := 0, Chapter := 0 }

/-- A page titled "x" and no sentinel fields. -/
def pageTitleX : Page :=
  { Title := ("x").data, FileName := [], Volume := 0, PageNumber := 0,
    AbsolutePageNumber := 0, Chapter := 0 }

theorem orElse_some_elim {α : Type} {x y : Option α} {a : α} (h : (x <|> y) = some a) :
    x = some a ∨ (x = none ∧ y = some a) := by
  cases x with
  | some b => rw [Option.some_orElse] at h; exact Or.inl h
  | none => rw [Option.none_orElse] at h; exact Or.inr ⟨rfl, h⟩

theorem tryDigits_wf {l ds : List Char} (h : tryDigits l = some ds) : WfCap ds := by
  unfold tryDigits at h
  split at h
  · simp at h
  next hne =>
    cases h
    refine ⟨hne, ?_⟩
    rw [List.all_eq_true]
    intro c hc
    exact List.mem_takeWhile_imp hc

theorem scanFirst_some {α : Type} {f : List Char → Option α} {P : α → Prop}
    (hf : ∀ l a, f l = some a → P a) :
    ∀ {s : List Char} {a : α}, scanFirst f s = some a → P a := by
  intro s
  induction s with
  | nil => intro a h; exact hf [] a h
  | cons c t ih =>
    intro a h
    simp only [scanFirst] at h
    rcases orElse_some_elim h with h1 | ⟨-, h2⟩
    · exact hf _ _ h1
    · exact ih h2

theorem afterMarker_wf {l ds : List Char} (h : afterMarker l = some ds) : WfCap ds := by
  unfold afterMarker at h
  rcases orElse_some_elim h with h1 | ⟨-, h2⟩
  · split at h1
    · split at h1
      · exact tryDigits_wf h1
      · simp at h1
    · simp at h1
  · exact tryDigits_wf h2

theorem tryMarkers_wf : ∀ {ms : List (List Char)} {l ds : List Char},
    tryMarkers ms l = some ds → WfCap ds := by
  intro ms
  induction ms with
  | nil => intro l ds h; simp [tryMarkers] at h
  | cons m mss ih =>
    intro l ds h
    simp only [tryMarkers] at h
    rcases orElse_some_elim h with h1 | ⟨-, h2⟩
    · split at h1
      · exact afterMarker_wf h1
      · simp at h1
    · exact ih h2

theorem volCapture_wf {s ds : List Char} (h : volCapture s = some ds) : WfCap ds :=
  scanFirst_some (fun _ _ hx => tryMarkers_wf hx) h

theorem chapCapture_wf {s ds : List Char} (h : chapCapture s = some ds) : WfCap ds :=
  scanFirst_some (fun _ _ hx => tryMarkers_wf hx) h

theorem absCapture_wf {s ds : List Char} (h : absCapture s = some ds) : WfCap ds :=
  tryDigits_wf h

theorem pnumB1_wf {l ds : List Char} (h : pnumB1 l = some ds) : WfCap ds := by
  unfold pnumB1 at h
  split at h
  · exact tryDigits_wf h
  · simp at h

theorem pnumB2_wf {l ds : List Char} (h : pnumB2 l = some ds) : WfCap ds := by
  unfold pnumB2 at h
  split at h
  · split at h
    · split at h
      · simp at h
      next ds' heq =>
        split at h
        · split at h
          · cases h; exact tryDigits_wf heq
          · simp at h
        · simp at h
    · simp at h
  · simp at h

theorem pnumMatchAt_wf {l : List Char} {g : Option (List Char) × Option (List Char)}
    (h : pnumMatchAt l = some g) :
    (∀ ds, g.1 = some ds → WfCap ds) ∧ (∀ ds, g.2 = some ds → WfCap ds) := by
  unfold pnumMatchAt at h
  split at h
  next ds hb1 =>
    cases h
    exact ⟨fun d hd => by cases hd; exact pnumB1_wf hb1, fun d hd => by simp at hd⟩
  next hb1 =>
    split at h
    next ds hb2 =>
      cases h
      exact ⟨fun d hd => by simp at hd, fun d hd => by cases hd; exact pnumB2_wf hb2⟩
    next => simp at h

theorem parseUint64_ok {ds : List Char} {v : Nat} (h : parseUint64 ds = .ok v) :
    v = digitsToNat ds := by
  unfold parseUint64 at h
  split at h
  · simp at h
  · split at h
    · split at h
      · cases h; rfl
      · simp at h
    · simp at h

theorem parseUint64_err_of_wf {ds : List Char} {e : NumError} (hwf : WfCap ds)
    (h : parseUint64 ds = .error e) : e = .outOfRange := by
  unfold parseUint64 at h
  split at h
  next h1 => exact absurd h1 hwf.1
  next h1 =>
    split at h
    · split at h
      · simp at h
      · cases h; rfl
    next h2 => exact absurd hwf.2 h2

theorem parseUintFromRegex_err {cap : Option (List Char)} {d : Nat} {e : NumError}
    (hcap : ∀ ds, cap = some ds → WfCap ds)
    (h : parseUintFromRegex cap d = .error e) : e = .outOfRange := by
  cases cap with
  | none => simp [parseUintFromRegex] at h
  | some ds => exact parseUint64_err_of_wf (hcap ds rfl) h

theorem pnumLoop_err : ∀ {gs : List (Option (List Char))} {acc : Nat} {e : NumError},
    (∀ g ∈ gs, ∀ ds, g = some ds → WfCap ds) → pnumLoop gs acc = .error e →
      e = .outOfRange := by
  intro gs
  induction gs with
  | nil => intro acc e _ h; simp [pnumLoop] at h
  | cons g rest ih =>
    intro acc e hwf h
    cases g with
    | none =>
      simp only [pnumLoop] at h
      exact ih (fun g hg => hwf g (List.mem_cons_of_mem _ hg)) h
    | some ds =>
      simp only [pnumLoop] at h
      split at h
      next e' heq =>
        cases h
        exact parseUint64_err_of_wf (hwf _ (List.mem_cons_self _ _) ds rfl) heq
      next v heq => exact ih (fun g hg => hwf g (List.mem_cons_of_mem _ hg)) h

theorem parse_ok_elim {s : List Char} {p : Page} (h : parse s = .ok p) :
    ∃ vol chap abs pnum,
      parseUintFromRegex (volCapture s) 0 = .ok vol ∧
      parseUintFromRegex (chapCapture s) 0 = .ok chap ∧
      parseUintFromRegex (absCapture s) UNDETERMINED = .ok abs ∧
      pnumField s = .ok pnum ∧
      p = { Title := replaceUnderscores (parseString s), FileName := s, Volume := vol,
            PageNumber := pnum, AbsolutePageNumber := abs, Chapter := chap } := by
  unfold parse at h
  split at h
  · simp at h
  next vol hvol =>
    split at h
    · simp at h
    next chap hchap =>
      split at h
      · simp at h
      next abs habs =>
        split at h
        · simp at h
        next pnum hpnum =>
          cases h
          exact ⟨vol, chap, abs, pnum, hvol, hchap, habs, hpnum, rfl⟩

theorem pnumSubmatch_combined : ∀ s : List Char,
    combineSubmatch (pnumSubmatch s) = scanFirst (fun l => pnumB1 l <|> pnumB2 l) s := by
  intro s
  induction s with
  | nil => rfl
  | cons c t ih =>
    simp only [pnumSubmatch, scanFirst] at *
    cases hb1 : pnumB1 (c :: t) with
    | some d => simp [pnumMatchAt, hb1, combineSubmatch]
    | none =>
      cases hb2 : pnumB2 (c :: t) with
      | some d => simp [pnumMatchAt, hb1, hb2, combineSubmatch]
      | none => simpa [pnumMatchAt, hb1, hb2] using ih

theorem pnumField_ok {s : List Char} {v : Nat} (h : pnumField s = .ok v) :
    v = pnumLeftmostRule s := by
  unfold pnumField at h
  unfold pnumLeftmostRule
  rw [← pnumSubmatch_combined s]
  split at h
  next heq =>
    cases h
    rw [heq]
    rfl
  next g1 g2 heq =>
    rw [heq]
    cases g1 with
    | none =>
      cases g2 with
      | none =>
        simp only [pnumLoop] at h
        cases h
        rfl
      | some b =>
        simp only [pnumLoop] at h
        split at h
        · simp at h
        next vb hb =>
          cases h
          simp only [combineSubmatch, Option.some_orElse]
          exact parseUint64_ok hb
    | some a =>
      cases g2 with
      | none =>
        simp only [pnumLoop] at h
        split at h
        · simp at h
        next va ha =>
          cases h
          simp only [combineSubmatch, Option.none_orElse, Option.some_orElse]
          exact parseUint64_ok ha
      | some b =>
        simp only [pnumLoop] at h
        split at h
        · simp at h
        next va ha =>
          split at h
          · simp at h
          next vb hb =>
            cases h
            simp only [combineSubmatch, Option.some_orElse]
            exact parseUint64_ok hb

theorem titleLazy_chars : ∀ {l acc t : List Char}, titleLazy acc l = some t →
    (∀ c ∈ acc, isTitleChar c = true) → ∀ c ∈ t, isTitleChar c = true := by
  intro l
  induction l with
  | nil => intro acc t h _; simp [titleLazy] at h
  | cons c rest ih =>
    intro acc t h hacc
    simp only [titleLazy] at h
    split at h
    next hc =>
      rcases orElse_some_elim h with h1 | ⟨-, h2⟩
      · cases hmap : afterTitle rest with
        | none => rw [hmap] at h1; simp at h1
        | some u =>
          rw [hmap] at h1
          simp only [Option.map_some'] at h1
          cases h1
          intro d hd
          rcases List.mem_append.mp hd with hd | hd
          · exact hacc d hd
          · have := List.mem_singleton.mp hd
            subst this
            exact hc
      · refine ih h2 ?_
        intro d hd
        rcases List.mem_append.mp hd with hd | hd
        · exact hacc d hd
        · have := List.mem_singleton.mp hd
          subst this
          exact hc
    · simp at h

theorem titleAt_chars {l t : List Char} (h : titleAt l = some t) :
    ∀ c ∈ t, isTitleChar c = true := by
  unfold titleAt at h
  rcases orElse_some_elim h with h1 | ⟨-, h2⟩
  · split at h1
    · split at h1
      · exact titleLazy_chars h1 (by intro d hd; simp at hd)
      · simp at h1
    · simp at h1
  · exact titleLazy_chars h2 (by intro d hd; simp at hd)

theorem checkPage_ok_iff {t0 : List Char} {p : Page} :
    checkPage t0 p = .ok () ↔
      p.Title = t0 ∧ p.Volume ≠ UNDETERMINED ∧ p.PageNumber ≠ UNDETERMINED ∧
        p.Chapter ≠ UNDETERMINED := by
  unfold checkPage
  split_ifs with h1 h2 h3 h4 <;> simp_all

theorem checkPages_ok_iff {t0 : List Char} : ∀ {l : List Page},
    checkPages t0 l = .ok () ↔ ∀ p ∈ l, checkPage t0 p = .ok () := by
  intro l
  induction l with
  | nil => simp [checkPages]
  | cons p rest ih =>
    simp only [checkPages]
    cases hk : checkPage t0 p with
    | error e => simp [hk, List.forall_mem_cons]
    | ok u => cases u; simp [hk, ih, List.forall_mem_cons]

/-- Corroboration of the embedding against the repository's first test case:
`"[Releaser] A Random Name Vol. 1 Chapter. 01.jpg"`. -/
example :
    parse (("[Releaser] A Random Name Vol. 1 Chapter. 01.jpg").data) =
      .ok { Title := ("A Random Name").data,
            FileName := ("[Releaser] A Random Name Vol. 1 Chapter. 01.jpg").data,
            Volume := 1, PageNumber := UNDETERMINED,
            AbsolutePageNumber := UNDETERMINED, Chapter := 1 } := rfl

/-- Corroboration of the embedding against the repository's third test case:
`"1009_A_Random_Name_c118_v14_Releaser_HQ_60.jpg"`. -/
example :
    parse (("1009_A_Random_Name_c118_v14_Releaser_HQ_60.jpg").data) =
      .ok { Title := ("A Random Name").data,
            FileName := ("1009_A_Random_Name_c118_v14_Releaser_HQ_60.jpg").data,
            Volume := 14, PageNumber := 60, AbsolutePageNumber := 1009,
            Chapter := 118 } := rfl

/-- C1, counterexample: the claim's tie-break — the last non-empty captured
group found during a left-to-right scan of all matches wins — contradicts the
code.  On "p1_xp23.jpg" there are several (overlapping) matches; the scan rule
prescribes page number 23, but parse computes 1: FindStringSubmatch keeps only
the leftmost match, whose capture is "1". -/
theorem c1_scan_rule_counterexample :
    pnumClaimRule (("p1_xp23.jpg").data) = 23 ∧
      (parse (("p1_xp23.jpg").data)).map Page.PageNumber = .ok 1 := ⟨rfl, rfl⟩

/-- C1, amended: the page number is computed by trying the two alternative
forms, and the LEFTMOST match wins, with form (a) preferred when both match at
the same position; its (unique non-empty) captured group gives the value, and
pageNumber is the sentinel when neither alternative matches anywhere. -/
theorem c1_pageNumber_leftmost_match (s : List Char) (p : Page) (h : parse s = .ok p) :
    p.PageNumber = pnumLeftmostRule s := by
  rcases parse_ok_elim h with ⟨vol, chap, abs, pnum, -, -, -, hpnum, rfl⟩
  exact pnumField_ok hpnum

theorem c1_pageNumber_leftmost_match_witness :
    pageOfAb1.PageNumber = pnumLeftmostRule (("ab1.jpg").data) :=
  c1_pageNumber_leftmost_match (("ab1.jpg").data) pageOfAb1 rfl

/-- C2: whenever parse returns a record (i.e. no panic), Parse returns an error
exactly when the inferred title is empty, and in both the error and the
non-error case it hands back exactly that best-effort record; there is no other
failure path. -/
theorem c2_error_iff_title_empty (s : List Char) (p : Page) (h : parse s = .ok p) :
    ((∃ m, Parse s = .ok (p, some m)) ↔ p.Title = []) ∧
      (Parse s = .ok (p, none) ↔ p.Title ≠ []) := by
  unfold Parse
  rw [h]
  by_cases ht : p.Title = [] <;> simp [ht]

theorem c2_error_iff_title_empty_witness :
    ∃ m, Parse [] = .ok (pageOfEmpty, some m) :=
  ((c2_error_iff_title_empty [] pageOfEmpty rfl).1).mpr rfl

/-- C3, counterexample: the malformed-capture panic path is reachable.  On the
input "99999999999999999999" the absolute-page capture is a digit run whose
value exceeds the uint64 range, strconv.ParseUint returns ErrRange, and parse
panics (modelled as the error result). -/
theorem c3_overflow_panic_counterexample :
    parse (("99999999999999999999").data) = .error NumError.outOfRange := rfl

/-- C3, amended: every capture the numeric sub-extractors feed to
strconv.ParseUint is a non-empty all-digit string, so the syntactic
malformed-capture failure is indeed unreachable; the panic branches can fire
only through a uint64 range overflow of a captured digit run. -/
theorem c3_panic_only_by_range (s : List Char) (e : NumError) (h : parse s = .error e) :
    e = NumError.outOfRange := by
  unfold parse at h
  split at h
  next e' hv =>
    cases h
    exact parseUintFromRegex_err (fun ds hds => volCapture_wf hds) hv
  next vol hvol =>
    split at h
    next e' hch =>
      cases h
      exact parseUintFromRegex_err (fun ds hds => chapCapture_wf hds) hch
    next chap hchap =>
      split at h
      next e' hab =>
        cases h
        exact parseUintFromRegex_err (fun ds hds => absCapture_wf hds) hab
      next abs habs =>
        split at h
        next e' hpn =>
          cases h
          unfold pnumField at hpn
          split at hpn
          · simp at hpn
          next g1 g2 heq =>
            have hgwf := scanFirst_some (fun l g hg => pnumMatchAt_wf hg) heq
            refine pnumLoop_err ?_ hpn
            intro g hg ds hds
            rcases List.mem_cons.mp hg with rfl | hg
            · exact hgwf.1 ds hds
            · rcases List.mem_cons.mp hg with rfl | hg
              · exact hgwf.2 ds hds
              · simp at hg
        next pnum hpn => simp at h

theorem c3_panic_only_by_range_witness :
    NumError.outOfRange = NumError.outOfRange :=
  c3_panic_only_by_range (("99999999999999999999").data) NumError.outOfRange rfl

/-- C4: parsing "0001_A_Series_name_c001_v01_p000_Source_Quality_Release.jpg"
yields exactly title "A Series name", volume 1, chapter 1, absolutePageNumber 1,
pageNumber 0, and the verbatim file name. -/
theorem c4_literal_case_two :
    parse (("0001_A_Series_name_c001_v01_p000_Source_Quality_Release.jpg").data) =
      .ok { Title := ("A Series name").data,
            FileName := ("0001_A_Series_name_c001_v01_p000_Source_Quality_Release.jpg").data,
            Volume := 1, PageNumber := 0, AbsolutePageNumber := 1, Chapter := 1 } := rfl

/-- C5: the grouping/validation stage fails the whole run — producing no
archive names — whenever any entry's volume, chapter, or pageNumber carries the
sentinel ^uint(0); and a run whose entries agree on the title and carry no
sentinel succeeds, chapter 0 included. -/
theorem c5_sentinels_fatal (pages : List Page) :
    (∀ p ∈ pages,
        (p.Volume = UNDETERMINED ∨ p.PageNumber = UNDETERMINED ∨
            p.Chapter = UNDETERMINED) →
          ∃ e, runMain pages = .error e) ∧
      (∀ p0 rest, pages = p0 :: rest →
        (∀ p ∈ pages, p.Title = p0.Title ∧ p.Volume ≠ UNDETERMINED ∧
            p.PageNumber ≠ UNDETERMINED ∧ p.Chapter ≠ UNDETERMINED) →
          ∃ out, runMain pages = .ok out) := by
  constructor
  · intro p hp hbad
    cases pages with
    | nil => simp at hp
    | cons p0 rest =>
      cases hk : checkPages p0.Title (p0 :: rest) with
      | error e => exact ⟨e, by simp [runMain, hk]⟩
      | ok u =>
        cases u
        have hchk := (checkPages_ok_iff.mp hk) p hp
        rw [checkPage_ok_iff] at hchk
        rcases hbad with hb | hb | hb
        · exact absurd hb hchk.2.1
        · exact absurd hb hchk.2.2.1
        · exact absurd hb hchk.2.2.2
  · intro p0 rest hps hgood
    subst hps
    have hk : checkPages p0.Title (p0 :: rest) = .ok () := by
      rw [checkPages_ok_iff]
      intro p hp
      rw [checkPage_ok_iff]
      exact hgood p hp
    exact ⟨(bucketKeys (p0 :: rest)).map fun vc => outputName p0.Title vc.1 vc.2,
      by simp [runMain, hk]⟩

theorem c5_sentinels_fatal_witness :
    ∃ e, runMain [pageVolSentinel] = .error e :=
  (c5_sentinels_fatal [pageVolSentinel]).1 pageVolSentinel (by simp) (Or.inl rfl)

/-- C6: the grouping stage rejects the whole set — no archive names are
produced — as soon as some entry's title differs from the first entry's title. -/
theorem c6_title_mismatch_fatal (pages : List Page) (p0 : Page) (rest : List Page)
    (hps : pages = p0 :: rest) (q : Page) (hq : q ∈ pages) (hne : q.Title ≠ p0.Title) :
    ∃ e, runMain pages = .error e := by
  subst hps
  cases hk : checkPages p0.Title (p0 :: rest) with
  | error e => exact ⟨e, by simp [runMain, hk]⟩
  | ok u =>
    cases u
    have hchk := (checkPages_ok_iff.mp hk) q hq
    rw [checkPage_ok_iff] at hchk
    exact absurd hchk.1 hne

theorem c6_title_mismatch_fatal_witness :
    ∃ e, runMain [pageBlank, pageTitleX] = .error e :=
  c6_title_mismatch_fatal [pageBlank, pageTitleX] pageBlank [pageTitleX] rfl
    pageTitleX (by simp) (by simp [pageTitleX, pageBlank])

/-- C7: the archive name for a bucket with title T, volume V and chapter C is
exactly "T Vol.V Ch.C.cbz" when C is non-zero and exactly "T Vol.V.cbz" when C
is zero. -/
theorem c7_archive_name_format (t : List Char) (v c : Nat) :
    (c ≠ 0 → outputName t v c =
        t ++ (" Vol.").data ++ (Nat.repr v).data ++ (" Ch.").data ++
          (Nat.repr c).data ++ (".cbz").data) ∧
      (c = 0 → outputName t v c =
        t ++ (" Vol.").data ++ (Nat.repr v).data ++ (".cbz").data) := by
  constructor <;> intro hc <;> simp [outputName, hc, List.append_assoc]

theorem c7_archive_name_format_witness :
    outputName (("T").data) 2 5 = ("T Vol.2 Ch.5.cbz").data := by
  rw [(c7_archive_name_format (("T").data) 2 5).1 (by decide)]
  rfl

/-- C8: for every input that does not begin with one or more digits — its
maximal leading digit run is empty — the absolute page number is the sentinel
^uint(0). -/
theorem c8_abs_sentinel_without_leading_digits (s : List Char) (p : Page)
    (h : parse s = .ok p) (hd : s.takeWhile isDigit = []) :
    p.AbsolutePageNumber = UNDETERMINED := by
  rcases parse_ok_elim h with ⟨vol, chap, abs, pnum, -, -, habs, -, rfl⟩
  have hcap : absCapture s = none := by
    unfold absCapture tryDigits
    simp [hd]
  rw [hcap] at habs
  simp only [parseUintFromRegex] at habs
  cases habs
  rfl

theorem c8_abs_sentinel_without_leading_digits_witness :
    pageOfAb1.AbsolutePageNumber = UNDETERMINED :=
  c8_abs_sentinel_without_leading_digits (("ab1.jpg").data) pageOfAb1 rfl rfl

/-- C9: whenever parse returns a record, its title contains no underscore, and
every character of the title is an ASCII letter, an apostrophe (code 39), or a
space (code 32). -/
theorem c9_title_characters (s : List Char) (p : Page) (h : parse s = .ok p) :
    '_' ∉ p.Title ∧
      ∀ c ∈ p.Title, isAlphaRE c = true ∨ c.toNat = 39 ∨ c.toNat = 32 := by
  rcases parse_ok_elim h with ⟨vol, chap, abs, pnum, -, -, -, -, rfl⟩
  have key : ∀ c ∈ replaceUnderscores (parseString s),
      c.toNat ≠ 95 ∧ (isAlphaRE c = true ∨ c.toNat = 39 ∨ c.toNat = 32) := by
    intro c hc
    unfold replaceUnderscores at hc
    rcases List.mem_map.mp hc with ⟨c', hc', rfl⟩
    have hclass : isTitleChar c' = true := by
      unfold parseString at hc'
      cases ht : titleCapture s with
      | none => rw [ht] at hc'; simp at hc'
      | some t =>
        rw [ht] at hc'
        exact scanFirst_some (fun l a ha => titleAt_chars ha) ht c' hc'
    by_cases h95 : c'.toNat = 95
    · rw [if_pos h95]
      exact ⟨by decide, Or.inr (Or.inr (by decide))⟩
    · rw [if_neg h95]
      refine ⟨h95, ?_⟩
      unfold isTitleChar at hclass
      simp only [Bool.or_eq_true, decide_eq_true_eq] at hclass
      rcases hclass with ((ha | h39) | hu) | h32
      · exact Or.inl ha
      · exact Or.inr (Or.inl h39)
      · exact absurd hu h95
      · exact Or.inr (Or.inr h32)
  constructor
  · intro hmem
    exact absurd (by decide : ('_').toNat = 95) (key _ hmem).1
  · intro c hc
    exact (key c hc).2

theorem c9_title_characters_witness :
    '_' ∉ pageOfAc1.Title ∧
      ∀ c ∈ pageOfAc1.Title, isAlphaRE c = true ∨ c.toNat = 39 ∨ c.toNat = 32 :=
  c9_title_characters (("A_c1").data) pageOfAc1 rfl

/-- C10: parsing the empty string yields the title-not-found error together
with the record whose FileName and Title are empty, whose Volume and Chapter
are 0, and whose PageNumber and AbsolutePageNumber are the sentinel ^uint(0). -/
theorem c10_empty_input :
    Parse [] = .ok (pageOfEmpty, some titleErrMsg) := rfl

end Mangarn
